import Mathlib

/-!
Shallow embedding of the tinydb library (src/src/lib.rs): the generic
in-memory `Database<T>` structure backed by a `HashSet<T>`, its mutation and
query operations, the bincode dump/load round-trip, and the path handling of
`auto_from`.

Modelling conventions:
* `HashSet<T>` is modelled as a `List α` (its elements, in iteration order)
  together with the no-duplicates invariant that the HashSet operations
  maintain; `insert` appends when the element is absent and leaves the list
  unchanged when present, `remove` erases the element, `contains` is list
  membership.  `T`'s `Eq` is a `DecidableEq α`.
* Rust methods taking `&mut self` become state-passing functions returning
  `Except DatabaseError Unit × Database α`; the second component is the
  state the database is left in, also on the error path (mutations made
  before an early `?` return persist, exactly as in Rust).
* `String` and `PathBuf` become Lean `String` (a `PathBuf` that serde can
  serialize is valid UTF-8 text).
* The bincode codec is modelled over `List Nat` symbol streams, length
  prefixes written as one symbol; the element codec is a parameter `encE` /
  `decE`, mirroring the generic `T: Serialize + DeserializeOwned` bound.
* `usize as i32` in `len` is the two's-complement truncation, modelled
  explicitly on `Nat`/`Int`.
-/

/-- Error enumeration of `error::DatabaseError` (module `error` is declared in
lib.rs; variants are those constructed in lib.rs and listed in the spec's error
taxonomy: duplicate found, item not found, database file not found, bad
database name, wrapped I/O error). -/
inductive DatabaseError where
  | DupeFound
  | ItemNotFound
  | DatabaseNotFound
  | BadDbName
  | IOError
deriving DecidableEq, Repr

/-- Structure `Database<T>` from lib.rs: label, optional save path, duplicate policy and
the in-memory `HashSet` of items (modelled as the list of its elements in
iteration order). -/
structure Database (α : Type) where
  label : String
  save_path : Option String
  strict_dupes : Bool
  items : List α
deriving DecidableEq, Repr

namespace Database

variable {α : Type} [DecidableEq α]

/-- Model of `HashSet::contains`: membership by the element type's equality. -/
def hs_contains (l : List α) (x : α) : Bool :=
  decide (x ∈ l)

/-- Model of `HashSet::insert`: no-op when an equal element is present, otherwise the
new element joins the set (placed at the end of the modelled iteration
order). -/
def hs_insert (l : List α) (x : α) : List α :=
  if x ∈ l then l else l ++ [x]

/-- Constructor `Database::new`: an empty database with the given metadata. -/
def new (label : String) (save_path : Option String) (strict_dupes : Bool) :
    Database α :=
  { label := label, save_path := save_path, strict_dupes := strict_dupes,
    items := [] }

/-- Mutator `Database::add_item`: under `strict_dupes`, adding an element equal to a
present one fails with `DupeFound`; otherwise the element is inserted into the
set (a non-strict duplicate insert is a membership no-op). -/
def add_item (db : Database α) (item : α) :
    Except DatabaseError Unit × Database α :=
  if db.strict_dupes && hs_contains db.items item then
    (Except.error DatabaseError.DupeFound, db)
  else
    (Except.ok (), { db with items := hs_insert db.items item })

/-- Mutator `Database::remove_item`: `HashSet::remove` returns whether the element was
present; absence is reported as `ItemNotFound` with the set unchanged. -/
def remove_item (db : Database α) (item : α) :
    Except DatabaseError Unit × Database α :=
  if hs_contains db.items item then
    (Except.ok (), { db with items := db.items.erase item })
  else
    (Except.error DatabaseError.ItemNotFound, db)

/-- Mutator `Database::update_item`: remove `old`, then add `new`, each early-returning
its error via `?`; state mutated by a successful removal persists even when the
subsequent add fails. -/
def update_item (db : Database α) (old newItem : α) :
    Except DatabaseError Unit × Database α :=
  match db.remove_item old with
  | (Except.error e, db1) => (Except.error e, db1)
  | (Except.ok _, db1) =>
    match db1.add_item newItem with
    | (Except.error e, db2) => (Except.error e, db2)
    | (Except.ok _, db2) => (Except.ok (), db2)

/-- Accessor `Database::contains`: wrapper around `HashSet::contains`. -/
def contains (db : Database α) (query : α) : Bool :=
  hs_contains db.items query

/-- Two's-complement truncation of a `usize` value to `i32`
(`self.items.len() as i32`). -/
def int32_of_nat (n : Nat) : Int :=
  if n % 2 ^ 32 < 2 ^ 31 then ((n % 2 ^ 32 : Nat) : Int)
  else ((n % 2 ^ 32 : Nat) : Int) - 2 ^ 32

/-- Accessor `Database::len`: the element count, cast `as i32`. -/
def len (db : Database α) : Int :=
  int32_of_nat db.items.length

/-- Query `Database::query_item`: scan the set in iteration order and return the
first element whose selected field equals the query, else `ItemNotFound`. -/
def query_item {β : Type} [DecidableEq β] (db : Database α) (value : α → β)
    (query : β) : Except DatabaseError α :=
  match db.items.find? (fun item => decide (value item = query)) with
  | some item => Except.ok item
  | none => Except.error DatabaseError.ItemNotFound

/-- Query `Database::query`: collect every element whose selected field equals the
query; a run with no match is the error `ItemNotFound`, never an empty
success. -/
def query {β : Type} [DecidableEq β] (db : Database α) (value : α → β)
    (queryVal : β) : Except DatabaseError (List α) :=
  let found : List α :=
    db.items.filter (fun item => decide (value item = queryVal))
  if found.length > 0 then Except.ok found
  else Except.error DatabaseError.ItemNotFound

end Database

/-- One call in a mutation sequence against a database: the three mutating
operations of the library. -/
inductive Op (α : Type) where
  | add (x : α)
  | remove (x : α)
  | update (old newItem : α)

/-- Apply one mutating call, keeping the state it leaves behind (the returned
`Result` is discarded, as a caller ignoring errors would). -/
def apply_op {α : Type} [DecidableEq α] (db : Database α) (op : Op α) :
    Database α :=
  match op with
  | Op.add x => (db.add_item x).2
  | Op.remove x => (db.remove_item x).2
  | Op.update old newItem => (db.update_item old newItem).2

/-- Apply a sequence of mutating calls in order. -/
def apply_ops {α : Type} [DecidableEq α] (db : Database α) (ops : List (Op α)) :
    Database α :=
  ops.foldl apply_op db

/-! ### Path handling (`std::path::Path::file_stem`, used by `auto_from`)

`Path::file_stem` is standard-library behaviour the source relies on: the
file name is the last normal component of the path (components drop empty
segments and lone `.` segments; a path ending in `..` or with no component
has no file name), and the stem is the file name up to its last `.`, unless
that `.` is the first character.  Paths are modelled as strings over `/`
separators. -/

/-- Split a character list on `/` separators. -/
def splitSlash : List Char → List (List Char)
  | [] => [[]]
  | c :: rest =>
    if c = '/' then [] :: splitSlash rest
    else
      match splitSlash rest with
      | [] => [[c]]
      | g :: gs => (c :: g) :: gs

/-- The normal components of a path: empty segments and `.` segments are
dropped. -/
def pathComponents (p : String) : List (List Char) :=
  (splitSlash p.data).filter (fun c => c ≠ [] && c ≠ ['.'])

/-- Model of `Path::file_name`: the last component, unless the path terminates in `..`
or has no component at all. -/
def file_name (p : String) : Option (List Char) :=
  match (pathComponents p).getLast? with
  | none => none
  | some c => if c = ['.', '.'] then none else some c

/-- The stem of a file name: everything before the last `.`, except that a
leading `.` with nothing before it keeps the whole name, as does a name with
no `.` at all. -/
def stemOfName (n : List Char) : List Char :=
  match n.reverse.dropWhile (fun c => c ≠ '.') with
  | [] => n
  | _ :: before => if before = [] then n else before.reverse

/-- Model of `Path::file_stem` composed with `OsStr::to_str` (Lean strings are always
valid text, so the `to_str` failure branch of `auto_from` cannot fire). -/
def file_stem (p : String) : Option String :=
  (file_name p).map (fun n => String.mk (stemOfName n))

/-! ### The bincode codec and persistence

bincode writes the `Database` struct field by field: the label
(length-prefixed text), the optional save path (presence tag then
length-prefixed text), the `strict_dupes` bool (one tag symbol), then the
item set (length prefix followed by each element's encoding).  The element
codec is the `Serialize`/`DeserializeOwned` capability of `T`, a parameter
`encE`/`decE` here.  Streams are `List Nat`; decoders return the value and
the unconsumed suffix, or `none` on malformed input. -/

/-- Encode length-prefixed text. -/
def encodeString (s : String) : List Nat :=
  s.data.length :: s.data.map Char.toNat

/-- Decode length-prefixed text. -/
def decodeString (s : List Nat) : Option (String × List Nat) :=
  match s with
  | [] => none
  | n :: rest =>
    if n ≤ rest.length then
      some (String.mk ((rest.take n).map Char.ofNat), rest.drop n)
    else none

/-- Encode an `Option<String>`: presence tag, then the value when present. -/
def encodeOptionString (o : Option String) : List Nat :=
  match o with
  | none => [0]
  | some s => 1 :: encodeString s

/-- Decode an `Option<String>`. -/
def decodeOptionString (s : List Nat) : Option (Option String × List Nat) :=
  match s with
  | 0 :: rest => some (none, rest)
  | 1 :: rest => (decodeString rest).map (fun p => (some p.1, p.2))
  | _ => none

/-- Encode a bool as one tag symbol. -/
def encodeBool (b : Bool) : List Nat :=
  [if b then 1 else 0]

/-- Decode a bool; any tag other than 0/1 is malformed. -/
def decodeBool (s : List Nat) : Option (Bool × List Nat) :=
  match s with
  | 0 :: rest => some (false, rest)
  | 1 :: rest => some (true, rest)
  | _ => none

/-- Encode a sequence: length prefix, then each element in order. -/
def encodeList {α : Type} (encE : α → List Nat) (l : List α) : List Nat :=
  l.length :: (l.map encE).flatten

/-- Decode exactly `n` elements. -/
def decodeListAux {α : Type} (decE : List Nat → Option (α × List Nat)) :
    Nat → List Nat → Option (List α × List Nat)
  | 0, s => some ([], s)
  | n + 1, s =>
    match decE s with
    | none => none
    | some (x, s1) =>
      match decodeListAux decE n s1 with
      | none => none
      | some (xs, s2) => some (x :: xs, s2)

/-- Decode a length-prefixed sequence. -/
def decodeList {α : Type} (decE : List Nat → Option (α × List Nat))
    (s : List Nat) : Option (List α × List Nat) :=
  match s with
  | [] => none
  | n :: rest => decodeListAux decE n rest

/-- The serialized form of a `Database<T>` (what `dump_db` writes through
`bincode::serialize_into`): label, save path, duplicate policy, items. -/
def encode_database {α : Type} (encE : α → List Nat) (db : Database α) :
    List Nat :=
  encodeString db.label ++ encodeOptionString db.save_path ++
    encodeBool db.strict_dupes ++ encodeList encE db.items

/-- Model of `bincode::deserialize` for `Database<T>`: decode the four fields in
order. -/
def decode_database {α : Type} (decE : List Nat → Option (α × List Nat))
    (s : List Nat) : Option (Database α × List Nat) :=
  match decodeString s with
  | none => none
  | some (lbl, s1) =>
    match decodeOptionString s1 with
    | none => none
    | some (sp, s2) =>
      match decodeBool s2 with
      | none => none
      | some (sd, s3) =>
        match decodeList decE s3 with
        | none => none
        | some (its, s4) =>
          some ({ label := lbl, save_path := sp, strict_dupes := sd,
                  items := its }, s4)

/-- Outcome of a load: a database, a returned `DatabaseError`, or the panic of
`bincode::deserialize(..).unwrap()` on malformed bytes (spec §7: decode
failure during load is fatal/unrecoverable). -/
inductive FromResult (α : Type) where
  | ok (db : Database α)
  | err (e : DatabaseError)
  | panic
deriving Repr

/-- Function `get_stream_from_path`: a missing path is `DatabaseNotFound`; otherwise
the file's bytes are read whole.  The filesystem is abstracted as the pair
(does the path exist, the bytes it holds). -/
def get_stream_from_path (pathExists : Bool) (contents : List Nat) :
    Except DatabaseError (List Nat) :=
  if !pathExists then Except.error DatabaseError.DatabaseNotFound
  else Except.ok contents

/-- Constructor `Database::from` (named `fromPath` since `from` is reserved in Lean): fetch the byte stream, then
`bincode::deserialize(..).unwrap()` — a decode failure panics rather than
returning an error. -/
def fromPath {α : Type} (decE : List Nat → Option (α × List Nat))
    (pathExists : Bool) (contents : List Nat) : FromResult α :=
  match get_stream_from_path pathExists contents with
  | Except.error e => FromResult.err e
  | Except.ok stream =>
    match decode_database decE stream with
    | none => FromResult.panic
    | some (db, _) => FromResult.ok db

/-- Constructor `Database::auto_from`: load when the path exists, otherwise create an
empty database named after the path's file stem and saving to that path;
`BadDbName` when no stem exists. -/
def auto_from {α : Type} (decE : List Nat → Option (α × List Nat))
    (path : String) (strict_dupes : Bool) (pathExists : Bool)
    (contents : List Nat) : FromResult α :=
  if pathExists then fromPath decE pathExists contents
  else
    match file_stem path with
    | none => FromResult.err DatabaseError.BadDbName
    | some db_name =>
      FromResult.ok
        { label := db_name, save_path := some path,
          strict_dupes := strict_dupes, items := [] }

-- Sanity examples (spec §8 scenario, first steps).
example :
    ((Database.new "t" none true : Database Nat).add_item 5).1 = Except.ok () := by
  rfl

example :
    (((Database.new "t" none true : Database Nat).add_item 5).2.add_item 5).1 =
      Except.error DatabaseError.DupeFound := by
  rfl

/-! ### Helper lemmas about the HashSet model -/

namespace Database

variable {α : Type} [DecidableEq α]

theorem hs_contains_eq_true {l : List α} {x : α} :
    hs_contains l x = true ↔ x ∈ l := by
  simp [hs_contains]

theorem hs_insert_of_mem {l : List α} {x : α} (h : x ∈ l) :
    hs_insert l x = l := by
  simp [hs_insert, h]

theorem hs_insert_of_not_mem {l : List α} {x : α} (h : x ∉ l) :
    hs_insert l x = l ++ [x] := by
  simp [hs_insert, h]

theorem nodup_hs_insert {l : List α} {x : α} (h : l.Nodup) :
    (hs_insert l x).Nodup := by
  by_cases hx : x ∈ l
  · rw [hs_insert_of_mem hx]; exact h
  · rw [hs_insert_of_not_mem hx]
    exact h.append (List.nodup_singleton x)
      (by intro a ha hax; simp at hax; exact hx (hax ▸ ha))

theorem nodup_add_item {db : Database α} {x : α} (h : db.items.Nodup) :
    (db.add_item x).2.items.Nodup := by
  unfold add_item
  by_cases hc : db.strict_dupes && hs_contains db.items x
  · simp [hc, h]
  · simp [hc, nodup_hs_insert h]

theorem nodup_remove_item {db : Database α} {x : α} (h : db.items.Nodup) :
    (db.remove_item x).2.items.Nodup := by
  unfold remove_item
  by_cases hc : hs_contains db.items x
  · simp [hc, h.erase x]
  · simp [hc, h]

theorem nodup_update_item {db : Database α} {old newItem : α}
    (h : db.items.Nodup) :
    (db.update_item old newItem).2.items.Nodup := by
  unfold update_item
  rcases hrm : db.remove_item old with ⟨res1, db1⟩
  have h1 : db1.items.Nodup := by
    have := @nodup_remove_item α _ db old h
    rw [hrm] at this; exact this
  cases res1 with
  | error e => simpa using h1
  | ok u =>
    rcases hadd : db1.add_item newItem with ⟨res2, db2⟩
    have h2 : db2.items.Nodup := by
      have := @nodup_add_item α _ db1 newItem h1
      rw [hadd] at this; exact this
    simp only []
    rw [hadd]
    cases res2 <;> simpa using h2

theorem int32_of_nat_small {n : Nat} (h : n < 2 ^ 31) :
    int32_of_nat n = (n : Int) := by
  have h32 : n < 2 ^ 32 := lt_trans h (by norm_num)
  unfold int32_of_nat
  rw [Nat.mod_eq_of_lt h32, if_pos h]

end Database

/-! ### Claim theorems: in-memory operations -/

theorem nodup_apply_op {α : Type} [DecidableEq α] (db : Database α) (op : Op α)
    (h : db.items.Nodup) : (apply_op db op).items.Nodup := by
  cases op with
  | add x => exact Database.nodup_add_item h
  | remove x => exact Database.nodup_remove_item h
  | update old newItem => exact Database.nodup_update_item h

theorem nodup_apply_ops {α : Type} [DecidableEq α] (db : Database α)
    (ops : List (Op α)) (h : db.items.Nodup) :
    (apply_ops db ops).items.Nodup := by
  induction ops generalizing db with
  | nil => exact h
  | cons op rest ih => exact ih (apply_op db op) (nodup_apply_op db op h)

/-- C1: starting from an empty database, any sequence of `add_item`,
`remove_item` and `update_item` calls leaves `items` with no two elements
that compare equal, whatever `strict_dupes` is. -/
theorem c1_items_nodup {α : Type} [DecidableEq α] (label : String)
    (save_path : Option String) (strict_dupes : Bool) (ops : List (Op α)) :
    (apply_ops (Database.new label save_path strict_dupes) ops).items.Nodup :=
  nodup_apply_ops _ ops List.nodup_nil

/-- C2: adding an element equal to one already present returns `DupeFound`
under `strict_dupes = true` and success under `strict_dupes = false`; in both
cases the database — and hence `len()` — is unchanged. -/
theorem c2_add_dupe_len_unchanged {α : Type} [DecidableEq α] (db : Database α)
    (item : α) (h : item ∈ db.items) :
    (db.strict_dupes = true →
      db.add_item item = (Except.error DatabaseError.DupeFound, db)) ∧
    (db.strict_dupes = false →
      (db.add_item item).1 = Except.ok () ∧ (db.add_item item).2 = db) ∧
    (db.add_item item).2.len = db.len := by
  obtain ⟨lbl, sp, sd, its⟩ := db
  cases sd <;>
    simp_all [Database.add_item, Database.hs_contains, Database.hs_insert,
      Database.len]

/-- Witness for C2 at a concrete strict database holding the item. -/
theorem c2_add_dupe_len_unchanged_witness :
    (Database.mk "t" none true [5, 7] : Database Nat).add_item 5 =
      (Except.error DatabaseError.DupeFound, Database.mk "t" none true [5, 7]) :=
  (c2_add_dupe_len_unchanged (Database.mk "t" none true [5, 7]) 5
    (by decide)).1 rfl

/-- C7 (amended): on a database holding fewer than `2^31` items,
`remove_item` on a present element succeeds, removes exactly that element and
lowers `len()` by one; on an absent element it fails with `ItemNotFound` and
leaves the database unchanged.  The bound is needed because `len()` truncates
the count `as i32`: at exactly `2^31` items a successful removal moves `len()`
from `-2^31` to `2^31 - 1`, not down by one. -/
theorem c7_remove_item {α : Type} [DecidableEq α] (db : Database α) (item : α)
    (hnd : db.items.Nodup) (hlen : db.items.length < 2 ^ 31) :
    (item ∈ db.items →
      (db.remove_item item).1 = Except.ok () ∧
      item ∉ (db.remove_item item).2.items ∧
      (∀ y, y ≠ item →
        (y ∈ (db.remove_item item).2.items ↔ y ∈ db.items)) ∧
      (db.remove_item item).2.len = db.len - 1) ∧
    (item ∉ db.items →
      db.remove_item item = (Except.error DatabaseError.ItemNotFound, db)) := by
  constructor
  · intro h
    have hc : Database.hs_contains db.items item = true :=
      Database.hs_contains_eq_true.mpr h
    have herase : (db.items.erase item).length + 1 = db.items.length :=
      List.length_erase_add_one h
    unfold Database.remove_item
    rw [if_pos hc]
    refine ⟨rfl, ?_, ?_, ?_⟩
    · simpa using fun hmem => ((List.Nodup.mem_erase_iff hnd).mp hmem).1 rfl
    · intro y hy
      simpa using List.mem_erase_of_ne hy
    · show Database.int32_of_nat (db.items.erase item).length =
        Database.int32_of_nat db.items.length - 1
      rw [Database.int32_of_nat_small (by omega),
        Database.int32_of_nat_small hlen]
      omega
  · intro h
    have hc : Database.hs_contains db.items item = false := by
      simp [Database.hs_contains, h]
    unfold Database.remove_item
    rw [hc]
    simp

/-- Witness for C7 at a concrete two-element database. -/
theorem c7_remove_item_witness :
    ((Database.mk "t" none true [5, 7] : Database Nat).remove_item 5).1 =
      Except.ok () ∧
    ((Database.mk "t" none true [5, 7] : Database Nat).remove_item 9) =
      (Except.error DatabaseError.ItemNotFound,
        Database.mk "t" none true [5, 7]) := by
  refine ⟨((c7_remove_item (Database.mk "t" none true [5, 7]) 5 (by decide)
    (by norm_num)).1 (by decide)).1, ?_⟩
  exact (c7_remove_item (Database.mk "t" none true [5, 7]) 9 (by decide)
    (by norm_num)).2 (by decide)

/-- Removing a present element from a database holding exactly `2^31` items
moves the `as i32` count from `-2^31` up to `2^31 - 1`: the truncation wraps
instead of decreasing by one. -/
theorem remove_at_wrap_boundary (lbl : String) (sp : Option String) (sd : Bool)
    (l : List Nat) (x : Nat) (hx : x ∈ l) (hl : l.length = 2 ^ 31) :
    x ∈ (Database.mk lbl sp sd l).items ∧
    ((Database.mk lbl sp sd l).remove_item x).1 = Except.ok () ∧
    ((Database.mk lbl sp sd l).remove_item x).2.len ≠
      (Database.mk lbl sp sd l).len - 1 := by
  have hrm : (Database.mk lbl sp sd l).remove_item x =
      (Except.ok (), Database.mk lbl sp sd (l.erase x)) := by
    unfold Database.remove_item
    rw [if_pos (Database.hs_contains_eq_true.mpr hx)]
  have h1 : (l.erase x).length + 1 = l.length := List.length_erase_add_one hx
  have h2 : (l.erase x).length = 2 ^ 31 - 1 := by omega
  have hafter : (Database.mk lbl sp sd (l.erase x)).len = 2 ^ 31 - 1 := by
    show Database.int32_of_nat (l.erase x).length = 2 ^ 31 - 1
    rw [h2]
    unfold Database.int32_of_nat
    norm_num
  have hbefore : (Database.mk lbl sp sd l).len = -(2 ^ 31) := by
    show Database.int32_of_nat l.length = -(2 ^ 31)
    rw [hl]
    unfold Database.int32_of_nat
    norm_num
  refine ⟨hx, ?_, ?_⟩
  · rw [hrm]
  · rw [hrm, hbefore, hafter]
    norm_num

/-- Counterexample to C7 as frozen ("for every Database ... len() decreases
by one"): on the database holding the `2^31` items `0 .. 2^31 - 1`, removing
the present element `0` succeeds, yet `len()` — the count truncated
`as i32` — moves from `-2^31` to `2^31 - 1` instead of decreasing by one. -/
theorem c7_len_decrease_counterexample :
    (0 : Nat) ∈ (Database.mk "t" none false (List.range (2 ^ 31))).items ∧
    ((Database.mk "t" none false
        (List.range (2 ^ 31)) : Database Nat).remove_item 0).1 =
      Except.ok () ∧
    ((Database.mk "t" none false
        (List.range (2 ^ 31)) : Database Nat).remove_item 0).2.len ≠
      (Database.mk "t" none false (List.range (2 ^ 31)) : Database Nat).len
        - 1 :=
  remove_at_wrap_boundary "t" none false (List.range (2 ^ 31)) 0
    (List.mem_range.mpr (by norm_num)) (List.length_range _)

/-- C4: `update_item` is not atomic.  An absent `old` fails with
`ItemNotFound` before `new` is looked at, leaving the set unchanged; a
successful removal followed by a strict-policy collision of `new` fails with
`DupeFound` with `old` already gone and `new` not added. -/
theorem c4_update_item_not_atomic {α : Type} [DecidableEq α] (db : Database α)
    (old newItem : α) (hnd : db.items.Nodup) :
    (old ∉ db.items →
      db.update_item old newItem =
        (Except.error DatabaseError.ItemNotFound, db)) ∧
    (old ∈ db.items → db.strict_dupes = true →
      newItem ∈ db.items.erase old →
      db.update_item old newItem =
        (Except.error DatabaseError.DupeFound,
          { db with items := db.items.erase old }) ∧
      old ∉ (db.update_item old newItem).2.items) := by
  constructor
  · intro h
    have hc : Database.hs_contains db.items old = false := by
      simp [Database.hs_contains, h]
    unfold Database.update_item Database.remove_item
    rw [hc]
    simp
  · intro hold hsd hcol
    have hc : Database.hs_contains db.items old = true :=
      Database.hs_contains_eq_true.mpr hold
    have hc2 : Database.hs_contains (db.items.erase old) newItem = true :=
      Database.hs_contains_eq_true.mpr hcol
    have heq : db.update_item old newItem =
        (Except.error DatabaseError.DupeFound,
          { db with items := db.items.erase old }) := by
      unfold Database.update_item Database.remove_item Database.add_item
      rw [hc]
      simp [hsd, hc2]
    refine ⟨heq, ?_⟩
    rw [heq]
    simpa using fun hmem => ((List.Nodup.mem_erase_iff hnd).mp hmem).1 rfl

/-- Witness for C4: removing 5 succeeds, re-adding collides with 7. -/
theorem c4_update_item_not_atomic_witness :
    (Database.mk "t" none true [5, 7] : Database Nat).update_item 5 7 =
      (Except.error DatabaseError.DupeFound,
        Database.mk "t" none true [7]) := by
  have h := ((c4_update_item_not_atomic
    (Database.mk "t" none true [5, 7] : Database Nat) 5 7 (by decide)).2
    (by decide) rfl (by decide)).1
  exact h

/-- C10: under `strict_dupes = true`, replacing a present element by an equal
one via `update_item x x` succeeds and leaves the database unchanged as a
set (membership, `len()` and all metadata are preserved): the removal happens
before the insertion, so the insertion never sees a duplicate. -/
theorem c10_update_item_self {α : Type} [DecidableEq α] (db : Database α)
    (x : α) (hnd : db.items.Nodup) (hsd : db.strict_dupes = true)
    (hx : x ∈ db.items) :
    (db.update_item x x).1 = Except.ok () ∧
    x ∈ (db.update_item x x).2.items ∧
    (db.update_item x x).2.len = db.len ∧
    (∀ y, y ∈ (db.update_item x x).2.items ↔ y ∈ db.items) ∧
    (db.update_item x x).2.label = db.label ∧
    (db.update_item x x).2.save_path = db.save_path ∧
    (db.update_item x x).2.strict_dupes = db.strict_dupes := by
  have hc : Database.hs_contains db.items x = true :=
    Database.hs_contains_eq_true.mpr hx
  have hnotmem : x ∉ db.items.erase x := by
    simpa using fun hmem => ((List.Nodup.mem_erase_iff hnd).mp hmem).1 rfl
  have hc2 : Database.hs_contains (db.items.erase x) x = false := by
    simp [Database.hs_contains, hnotmem]
  have hins : Database.hs_insert (db.items.erase x) x =
      db.items.erase x ++ [x] := Database.hs_insert_of_not_mem hnotmem
  have heq : db.update_item x x =
      (Except.ok (), { db with items := db.items.erase x ++ [x] }) := by
    unfold Database.update_item Database.remove_item Database.add_item
    rw [hc]
    simp [hsd, hc2, hins]
  have hperm : (db.items.erase x ++ [x]).Perm db.items := by
    refine List.Perm.trans ?_ (List.perm_cons_erase hx).symm
    simp [@List.perm_append_comm α (db.items.erase x) [x]]
  rw [heq]
  refine ⟨rfl, ?_, ?_, ?_, rfl, rfl, rfl⟩
  · simp
  · show Database.int32_of_nat (db.items.erase x ++ [x]).length =
      Database.int32_of_nat db.items.length
    rw [hperm.length_eq]
  · intro y
    exact hperm.mem_iff

/-- Witness for C10 at a concrete strict database. -/
theorem c10_update_item_self_witness :
    ((Database.mk "t" none true [5, 7] : Database Nat).update_item 5 5).1 =
      Except.ok () ∧
    5 ∈ ((Database.mk "t" none true [5, 7] : Database Nat).update_item 5 5).2.items := by
  have h := c10_update_item_self (Database.mk "t" none true [5, 7] : Database Nat)
    5 (by decide) rfl (by decide)
  exact ⟨h.1, h.2.1⟩

/-- Unfolding of `query` to its filter. -/
theorem query_eq_filter {α β : Type} [DecidableEq α] [DecidableEq β]
    (db : Database α) (v : α → β) (q : β) :
    db.query v q =
      (if (db.items.filter fun item => decide (v item = q)).length > 0 then
        Except.ok (db.items.filter fun item => decide (v item = q))
      else Except.error DatabaseError.ItemNotFound) := rfl

/-- C5: `query` succeeds with exactly the elements whose selected field equals
the query value (success is never empty), and fails with `ItemNotFound`
exactly when no element matches. -/
theorem c5_query_filter {α β : Type} [DecidableEq α] [DecidableEq β]
    (db : Database α) (v : α → β) (q : β) :
    (∀ l, db.query v q = Except.ok l →
      (∀ e, e ∈ l ↔ e ∈ db.items ∧ v e = q) ∧ l ≠ []) ∧
    (db.query v q = Except.error DatabaseError.ItemNotFound ↔
      ∀ e ∈ db.items, v e ≠ q) := by
  rw [query_eq_filter]
  by_cases hlen : (db.items.filter fun item => decide (v item = q)).length > 0
  · rw [if_pos hlen]
    constructor
    · intro l hl
      cases hl
      constructor
      · intro e
        simp [List.mem_filter]
      · intro hnil
        rw [hnil] at hlen
        simp at hlen
    · constructor
      · intro h
        cases h
      · intro hall
        exfalso
        obtain ⟨e, he⟩ := List.exists_mem_of_length_pos hlen
        have := List.mem_filter.mp he
        exact hall e this.1 (by simpa using this.2)
  · rw [if_neg hlen]
    constructor
    · intro l hl
      cases hl
    · constructor
      · intro _ e he hv
        apply hlen
        apply List.length_pos.mpr
        intro hnil
        have : e ∈ db.items.filter fun item => decide (v item = q) :=
          List.mem_filter.mpr ⟨he, by simpa using hv⟩
        rw [hnil] at this
        cases this
      · intro _
        rfl

/-- Witness for C5: querying residues mod 5 in a concrete database. -/
theorem c5_query_filter_witness :
    ((2 : Nat) ∈ [2] ↔ (2 : Nat) ∈ [1, 2, 3] ∧ 2 % 5 = 2) ∧
    ((Database.mk "t" none false [1, 2, 3] : Database Nat).query
        (fun n => n % 5) 4 =
      Except.error DatabaseError.ItemNotFound) := by
  constructor
  · exact ((c5_query_filter (Database.mk "t" none false [1, 2, 3]
      : Database Nat) (fun n => n % 5) 2).1 [2] rfl).1 2
  · exact (c5_query_filter (Database.mk "t" none false [1, 2, 3]
      : Database Nat) (fun n => n % 5) 4).2.mpr (by decide)

/-- C6: `query_item` returns a matching element of the set whenever one
exists, and fails with `ItemNotFound` exactly when no element matches.  (It
takes the database by shared reference, so the database is unmodified by
construction: the model is a pure function of the database.) -/
theorem c6_query_item_first {α β : Type} [DecidableEq α] [DecidableEq β]
    (db : Database α) (v : α → β) (q : β) :
    (∀ e, db.query_item v q = Except.ok e → e ∈ db.items ∧ v e = q) ∧
    ((∃ e ∈ db.items, v e = q) → ∃ e, db.query_item v q = Except.ok e) ∧
    (db.query_item v q = Except.error DatabaseError.ItemNotFound ↔
      ∀ e ∈ db.items, v e ≠ q) := by
  unfold Database.query_item
  rcases hf : db.items.find? (fun item => decide (v item = q)) with _ | e0
  · have hnone := List.find?_eq_none.mp hf
    refine ⟨?_, ?_, ?_⟩
    · intro e he
      cases he
    · intro ⟨e, he, hv⟩
      exact absurd (by simpa using hv) (hnone e he)
    · simp only []
      constructor
      · intro _ e he hv
        exact hnone e he (by simpa using hv)
      · intro _
        trivial
  · refine ⟨?_, ?_, ?_⟩
    · intro e he
      cases he
      have hmem := List.mem_of_find?_eq_some hf
      have hv := List.find?_some hf
      exact ⟨hmem, by simpa using hv⟩
    · intro _
      exact ⟨e0, rfl⟩
    · constructor
      · intro h
        cases h
      · intro hall
        exfalso
        have hmem := List.mem_of_find?_eq_some hf
        have hv := List.find?_some hf
        exact hall e0 hmem (by simpa using hv)

/-- Witness for C6: a match exists for residue 2, none for residue 4. -/
theorem c6_query_item_first_witness :
    (∃ e, (Database.mk "t" none false [1, 2, 3] : Database Nat).query_item
        (fun n => n % 5) 2 = Except.ok e) ∧
    ((Database.mk "t" none false [1, 2, 3] : Database Nat).query_item
        (fun n => n % 5) 4 = Except.error DatabaseError.ItemNotFound) := by
  constructor
  · exact (c6_query_item_first (Database.mk "t" none false [1, 2, 3]
      : Database Nat) (fun n => n % 5) 2).2.1 ⟨2, by decide, by decide⟩
  · exact (c6_query_item_first (Database.mk "t" none false [1, 2, 3]
      : Database Nat) (fun n => n % 5) 4).2.2.mpr (by decide)

/-- C9: on a non-existent path, `auto_from` builds an empty database labelled
by the path's file stem, saving to the given path with the given policy, and
fails with `BadDbName` exactly when the path has no stem; concretely,
`"new.db"` gives label `"new"`. -/
theorem c9_auto_from_creates {α : Type} (decE : List Nat → Option (α × List Nat))
    (path : String) (strict_dupes : Bool) (contents : List Nat) :
    (∀ stem, file_stem path = some stem →
      auto_from decE path strict_dupes false contents =
        FromResult.ok
          { label := stem, save_path := some path,
            strict_dupes := strict_dupes, items := [] }) ∧
    (auto_from decE path strict_dupes false contents =
        FromResult.err DatabaseError.BadDbName ↔ file_stem path = none) ∧
    file_stem "new.db" = some "new" := by
  refine ⟨?_, ?_, by decide⟩
  · intro stem hs
    unfold auto_from
    simp [hs]
  · unfold auto_from
    rcases hs : file_stem path with _ | stem <;> simp [hs]

/-- Witness for C9: the spec's scenario `auto_from("new.db", false)`. -/
theorem c9_auto_from_creates_witness :
    auto_from (fun _ => (none : Option (Nat × List Nat))) "new.db" false false [] =
      FromResult.ok
        { label := "new", save_path := some "new.db",
          strict_dupes := false, items := [] } :=
  (c9_auto_from_creates (fun _ => (none : Option (Nat × List Nat))) "new.db" false []).1
    "new" (by decide)

/-! ### Round-trip lemmas for the codec -/

theorem decodeString_encodeString (s : String) (rest : List Nat) :
    decodeString (encodeString s ++ rest) = some (s, rest) := by
  have hlen : (s.data.map Char.toNat).length = s.data.length :=
    List.length_map _ _
  have htake : ((s.data.map Char.toNat) ++ rest).take s.data.length =
      s.data.map Char.toNat := by
    rw [← hlen]; exact List.take_left _ _
  have hdrop : ((s.data.map Char.toNat) ++ rest).drop s.data.length = rest := by
    rw [← hlen]; exact List.drop_left _ _
  show (if s.data.length ≤ ((s.data.map Char.toNat) ++ rest).length then
      some (String.mk (((s.data.map Char.toNat ++ rest).take
        s.data.length).map Char.ofNat),
        (s.data.map Char.toNat ++ rest).drop s.data.length)
    else none) = some (s, rest)
  rw [if_pos (by rw [List.length_append, hlen]; omega)]
  rw [htake, hdrop, List.map_map]
  have hmap : s.data.map (Char.ofNat ∘ Char.toNat) = s.data :=
    List.map_congr_left (fun c _ => Char.ofNat_toNat c) |>.trans (List.map_id _)
  rw [hmap]

theorem decodeOptionString_encodeOptionString (o : Option String)
    (rest : List Nat) :
    decodeOptionString (encodeOptionString o ++ rest) = some (o, rest) := by
  cases o with
  | none => rfl
  | some s =>
    show Option.map (fun p => (some p.1, p.2))
      (decodeString (encodeString s ++ rest)) = some (some s, rest)
    rw [decodeString_encodeString]
    rfl

theorem decodeBool_encodeBool (b : Bool) (rest : List Nat) :
    decodeBool (encodeBool b ++ rest) = some (b, rest) := by
  cases b <;> rfl

theorem decodeListAux_encode {α : Type} (encE : α → List Nat)
    (decE : List Nat → Option (α × List Nat))
    (hE : ∀ x rest, decE (encE x ++ rest) = some (x, rest)) (l : List α)
    (rest : List Nat) :
    decodeListAux decE l.length ((l.map encE).flatten ++ rest) =
      some (l, rest) := by
  induction l generalizing rest with
  | nil => simp [decodeListAux]
  | cons x xs ih =>
    show decodeListAux decE (xs.length + 1)
      ((encE x ++ (xs.map encE).flatten) ++ rest) = _
    rw [List.append_assoc]
    unfold decodeListAux
    rw [hE]
    simp only []
    rw [ih]

theorem decodeList_encodeList {α : Type} (encE : α → List Nat)
    (decE : List Nat → Option (α × List Nat))
    (hE : ∀ x rest, decE (encE x ++ rest) = some (x, rest)) (l : List α)
    (rest : List Nat) :
    decodeList decE (encodeList encE l ++ rest) = some (l, rest) := by
  show decodeList decE (l.length :: ((l.map encE).flatten ++ rest)) = _
  unfold decodeList
  exact decodeListAux_encode encE decE hE l rest

theorem decode_database_encode_database {α : Type} (encE : α → List Nat)
    (decE : List Nat → Option (α × List Nat))
    (hE : ∀ x rest, decE (encE x ++ rest) = some (x, rest)) (db : Database α)
    (rest : List Nat) :
    decode_database decE (encode_database encE db ++ rest) =
      some (db, rest) := by
  obtain ⟨lbl, sp, sd, its⟩ := db
  unfold encode_database decode_database
  simp only [List.append_assoc]
  rw [decodeString_encodeString]
  simp only []
  rw [decodeOptionString_encodeOptionString]
  simp only []
  rw [decodeBool_encodeBool]
  simp only []
  rw [decodeList_encodeList encE decE hE]

/-- C3: loading the exact byte stream `dump_db` writes for a database yields a
database with the same label, save path, duplicate policy and item set,
provided the element codec round-trips (the `Serialize`/`DeserializeOwned`
contract of `T`). -/
theorem c3_dump_load_round_trip {α : Type} [DecidableEq α]
    (encE : α → List Nat) (decE : List Nat → Option (α × List Nat))
    (hE : ∀ x rest, decE (encE x ++ rest) = some (x, rest)) (db : Database α) :
    ∃ db2, fromPath decE true (encode_database encE db) = FromResult.ok db2 ∧
      db2.label = db.label ∧ db2.save_path = db.save_path ∧
      db2.strict_dupes = db.strict_dupes ∧
      (∀ e, e ∈ db2.items ↔ e ∈ db.items) := by
  have h := decode_database_encode_database encE decE hE db []
  rw [List.append_nil] at h
  refine ⟨db, ?_, rfl, rfl, rfl, fun e => Iff.rfl⟩
  unfold fromPath get_stream_from_path
  simp [h]

/-- Witness for C3 with the unary `Nat` codec and a concrete database. -/
theorem c3_dump_load_round_trip_witness :
    ∃ db2,
      fromPath (fun s => match s with | [] => none | n :: r => some (n, r))
          true
          (encode_database (fun n => [n])
            (Database.mk "db" (some "p.tinydb") true [3, 1])) =
        FromResult.ok db2 ∧
      db2.label = (Database.mk "db" (some "p.tinydb") true [3, 1]).label ∧
      db2.save_path =
        (Database.mk "db" (some "p.tinydb") true [3, 1]).save_path ∧
      db2.strict_dupes =
        (Database.mk "db" (some "p.tinydb") true [3, 1]).strict_dupes ∧
      (∀ e, e ∈ db2.items ↔
        e ∈ (Database.mk "db" (some "p.tinydb") true ([3, 1] : List Nat)).items) :=
  c3_dump_load_round_trip (fun n => [n])
    (fun s => match s with | [] => none | n :: r => some (n, r))
    (fun _ _ => rfl) (Database.mk "db" (some "p.tinydb") true [3, 1])

/-- C8: `from` fails with `DatabaseNotFound` whenever the path does not exist,
and on an existing file whose bytes do not decode as a `Database<T>` it halts
(the `unwrap` on the decode result), never returning wrong data. -/
theorem c8_from_missing_or_malformed {α : Type}
    (decE : List Nat → Option (α × List Nat)) (contents : List Nat) :
    fromPath decE false contents =
      FromResult.err DatabaseError.DatabaseNotFound ∧
    (decode_database decE contents = none →
      fromPath decE true contents = FromResult.panic) := by
  constructor
  · rfl
  · intro h
    unfold fromPath get_stream_from_path
    simp [h]

/-- Witness for C8: the empty byte stream is malformed for the `Nat` codec. -/
theorem c8_from_missing_or_malformed_witness :
    fromPath
        (fun s => match s with | ([] : List Nat) => none | n :: r => some (n, r))
        false [0] =
      FromResult.err DatabaseError.DatabaseNotFound ∧
    fromPath
        (fun s => match s with | ([] : List Nat) => none | n :: r => some (n, r))
        true [] = FromResult.panic :=
  ⟨(c8_from_missing_or_malformed _ [0]).1,
    (c8_from_missing_or_malformed _ []).2 rfl⟩
